import Mathlib

/-!
Shallow embedding of the TIFF batch-processing pipeline in
src/images/set3/formatSet.py, together with proofs of the behavioural
claims about it.

Modelling conventions:
* Strings are Lean strings; where Python compares strings by code point we
  compare lists of code points (Nat).  All inputs of interest are ASCII, so
  Char.isDigit / Char.toLower coincide with Python's classification on the
  data the claims quantify over.
* The filesystem is a map from path strings to abstract file contents
  (Nat).  Rename and unlink act on this map; operations of the OS that the
  source allows to fail are parameterised by injected success flags.
* A Python exception that propagates is an Except.error; exceptions that
  the source swallows are folded into the state transformer.
* subprocess results are passed in as the captured stdout/stderr strings;
  a non-zero exit of the external tool raises inside run_cmd, which the
  orchestrator's per-asset try/except catches, so it is absorbed into the
  per-asset success flag of the batch model.
-/

namespace FormatSet

/-! ## Three-way comparisons (model of Python's int and str comparison) -/

/-- Three-way comparison of naturals, modelling Python int comparison. -/
def cmpNat (a b : Nat) : Ordering :=
  if a < b then .lt else if b < a then .gt else .eq

/-- Lexicographic comparison of code-point sequences, modelling Python str
comparison (strings compare by code point, shorter prefix first). -/
def lexCmp : List Nat → List Nat → Ordering
  | [], [] => .eq
  | [], _ :: _ => .lt
  | _ :: _, [] => .gt
  | a :: as, b :: bs =>
    match cmpNat a b with
    | .eq => lexCmp as bs
    | o => o

/-! ## natural_sort_key (formatSet.py lines 142-144) -/

/-- One token of a natural-sort key: Python produces int for digit runs and
str for non-digit runs (stored as lowercased code points). -/
inductive NatTok where
  | num (n : Nat)
  | str (s : List Nat)
  deriving DecidableEq

/-- Split a character list into maximal runs of digits / non-digits,
modelling re.findall of the pattern one-or-more-digits or
one-or-more-non-digits applied to an ASCII string. -/
def tokenize : List Char → List (List Char)
  | [] => []
  | c :: cs =>
    match tokenize cs with
    | [] => [[c]]
    | [] :: runs => [c] :: runs
    | (d :: run) :: runs =>
      if c.isDigit = d.isDigit then (c :: d :: run) :: runs
      else [c] :: (d :: run) :: runs

/-- Numeric value of a digit run, as Python's int() of a digit string. -/
def digitsVal (l : List Char) : Nat :=
  l.foldl (fun acc c => acc * 10 + (c.toNat - 48)) 0

/-- Model of natural_sort_key: tokenize into digit / non-digit runs, map
digit runs to ints and other runs to their lowercased text. -/
def natural_sort_key (s : String) : List NatTok :=
  (tokenize s.data).map fun r =>
    if !r.isEmpty && r.all Char.isDigit then .num (digitsVal r)
    else .str (r.map fun c => (Char.toLower c).toNat)

/-- Comparison of two key tokens.  none models the TypeError Python raises
when an int meets a str under the less-than operator. -/
def cmpTok : NatTok → NatTok → Option Ordering
  | .num a, .num b => some (cmpNat a b)
  | .str a, .str b => some (lexCmp a b)
  | _, _ => none

/-- Comparison of two whole keys, as Python list comparison: pairwise until
a difference, shorter prefix first; an int/str clash yields none
(TypeError). -/
def cmpKey : List NatTok → List NatTok → Option Ordering
  | [], [] => some .eq
  | [], _ :: _ => some .lt
  | _ :: _, [] => some .gt
  | a :: as, b :: bs =>
    match cmpTok a b with
    | none => none
    | some .eq => cmpKey as bs
    | some o => some o

/-- Comparator the orchestrator effectively uses on identifiers. -/
def identCmp (a b : String) : Option Ordering :=
  cmpKey (natural_sort_key a) (natural_sort_key b)

/-- Non-strict order induced by a three-way comparator. -/
def leOf {α : Type} (cmp : α → α → Option Ordering) (x y : α) : Prop :=
  cmp x y = some .lt ∨ cmp x y = some .eq

/-- Non-strict key order on identifiers: a sorts no later than b. -/
def identLe : String → String → Prop :=
  leOf identCmp

/-! ## A fallible stable sort (model of Python sorted with a key) -/

/-- Insert x into an already sorted list, failing (TypeError) on the first
incomparable pair met.  x is placed before the first element it is ≤ to,
which gives the stability of Python sorted. -/
def insertE {α : Type} (cmp : α → α → Option Ordering) (x : α) :
    List α → Except Unit (List α)
  | [] => .ok [x]
  | y :: ys =>
    match cmp x y with
    | none => .error ()
    | some .gt =>
      match insertE cmp x ys with
      | .ok r => .ok (y :: r)
      | .error e => .error e
    | some _ => .ok (x :: y :: ys)

/-- Stable insertion sort in the error monad.  When every pair of keys is
comparable this computes exactly the order Python sorted returns (the
stable ascending reordering); an incomparable pair makes it fail as the
TypeError aborts Python's sort. -/
def sortE {α : Type} (cmp : α → α → Option Ordering) :
    List α → Except Unit (List α)
  | [] => .ok []
  | x :: xs =>
    match sortE cmp xs with
    | .ok s => insertE cmp x s
    | .error e => .error e

/-! ## Path helpers (model of pathlib stem / suffix on plain file names) -/

/-- Split a reversed character list at the first dot: returns the reversed
extension characters and the reversed stem characters. -/
def revSplitDot : List Char → Option (List Char × List Char)
  | [] => none
  | c :: cs =>
    if c = '.' then some ([], cs)
    else (revSplitDot cs).map fun p => (c :: p.1, p.2)

/-- Model of pathlib stem for a bare file name: the name without its last
extension; a name whose only dot leads (dotfile) or trails keeps itself. -/
def pathStem (s : String) : String :=
  match revSplitDot s.data.reverse with
  | some (suf, st) => if st.isEmpty || suf.isEmpty then s else String.mk st.reverse
  | none => s

/-- Model of pathlib suffix for a bare file name: the last extension with
its dot, empty for dotfiles, trailing dots and extensionless names. -/
def pathSuffix (s : String) : String :=
  match revSplitDot s.data.reverse with
  | some (suf, st) => if st.isEmpty || suf.isEmpty then "" else String.mk ('.' :: suf.reverse)
  | none => ""

/-- ASCII lowercase of a string, as Python str.lower on ASCII input. -/
def pyLower (s : String) : String :=
  String.mk (s.data.map Char.toLower)

/-- File filter of main (line 162): suffix lowercased is .tif or .tiff. -/
def isTiffFile (name : String) : Bool :=
  pyLower (pathSuffix name) = ".tif" || pyLower (pathSuffix name) = ".tiff"

/-! ## identify_num_pages (formatSet.py lines 36-46) -/

/-- Whitespace set of Python str.strip (ASCII part). -/
def pyIsSpace (c : Char) : Bool :=
  c = ' ' || c = '\t' || c = '\n' || c = '\r' || c = '\x0b' || c = '\x0c'

/-- Model of Python str.strip with no arguments. -/
def pyStrip (s : String) : String :=
  String.mk (((s.data.dropWhile pyIsSpace).reverse.dropWhile pyIsSpace).reverse)

/-- Digit sequence with Python's single-underscore-between-digits rule,
continuing a number whose first digit has been consumed. -/
def pyDigitsRest : List Char → Option (List Nat)
  | [] => some []
  | '_' :: c :: rest =>
    if c.isDigit then (pyDigitsRest rest).map ((c.toNat - 48) :: ·) else none
  | c :: rest =>
    if c.isDigit then (pyDigitsRest rest).map ((c.toNat - 48) :: ·) else none

/-- A whole unsigned digit group: at least one digit, then pyDigitsRest. -/
def pyDigitsAll : List Char → Option (List Nat)
  | [] => none
  | c :: rest =>
    if c.isDigit then (pyDigitsRest rest).map ((c.toNat - 48) :: ·) else none

/-- Decimal value of a digit list. -/
def digitsToVal (ds : List Nat) : Nat :=
  ds.foldl (fun a d => a * 10 + d) 0

/-- Model of Python int() applied to an already stripped string: optional
sign, then digits with optional single underscores between them; none
models the ValueError. -/
def parseIntPy (s : String) : Option Int :=
  match s.data with
  | '+' :: rest => (pyDigitsAll rest).map fun ds => Int.ofNat (digitsToVal ds)
  | '-' :: rest => (pyDigitsAll rest).map fun ds => -Int.ofNat (digitsToVal ds)
  | rest => (pyDigitsAll rest).map fun ds => Int.ofNat (digitsToVal ds)

/-- Text the source selects on line 41: stripped stdout if non-empty, else
stripped stderr (Python's or on strings). -/
def pickTxt (stdout stderr : String) : String :=
  if pyStrip stdout ≠ "" then pyStrip stdout else pyStrip stderr

/-- Model of identify_num_pages given the captured subprocess streams of a
successful (exit status 0) identify invocation: parse the selected text as
an int, defaulting to 1 when parsing fails. -/
def identify_num_pages (stdout stderr : String) : Int :=
  match parseIntPy (pickTxt stdout stderr) with
  | some n => n
  | none => 1

/-! ## combine_channels_if_needed (formatSet.py lines 67-108) -/

/-- Result of the compositing step: the returned path and the argument list
of the external command it invoked, if any.  In the invoked list, the
-combine operator assigns the listed input images to the Red, Green and
Blue channels in order. -/
structure CombineResult where
  ret : String
  invoked : Option (List String)
  deriving DecidableEq

/-- Model of combine_channels_if_needed, with the page count (the value
identify_num_pages returned for the asset) passed in.  For at most one page
the input path is returned untouched and no command runs; otherwise the
composite is written to the temp path derived from the input name (the
source's with_suffix call appends .rgb.tmp.tif) and the page selections are
pages 0,1,2 for three or more pages, and 0,1,1 for exactly two. -/
def combine_channels_if_needed (im_cmd mode in_path : String) (n_pages : Int) :
    CombineResult :=
  if n_pages ≤ 1 then { ret := in_path, invoked := none }
  else
    let temp := in_path ++ ".rgb.tmp.tif"
    let args0 := if mode = "magick" then [im_cmd] else [im_cmd]
    if n_pages ≥ 3 then
      { ret := temp
        invoked := some (args0 ++
          [in_path ++ "[0]", in_path ++ "[1]", in_path ++ "[2]", "-combine", temp]) }
    else
      { ret := temp
        invoked := some (args0 ++
          [in_path ++ "[0]", in_path ++ "[1]", in_path ++ "[1]", "-combine", temp]) }

/-! ## safe_replace (formatSet.py lines 48-65) -/

/-- Filesystem state: contents (abstract) found at each path. -/
abbrev FS := String → Option Nat

/-- Pointwise update of the filesystem. -/
def fsSet (fs : FS) (p : String) (v : Option Nat) : FS :=
  fun q => if q = p then v else fs q

/-- Backup path: original.with_suffix(original.suffix + ".bak") appends
.bak to the name. -/
def backupPath (original : String) : String :=
  original ++ ".bak"

/-- Injected OS outcomes for the operations safe_replace tolerates or lets
escape: the stale-backup unlink, the publishing rename, and the final
backup unlink. -/
structure RepFlags where
  preUnlinkOk : Bool
  step3Ok : Bool
  finalUnlinkOk : Bool

/-- Unlink p if it exists, swallowing a failed deletion (the try/except
pass pattern of the source). -/
def tryUnlink (fs : FS) (p : String) (ok : Bool) : FS :=
  if ((fs p).isSome && ok : Bool) then fsSet fs p none else fs

/-- Rename original onto backup; a missing original is a swallowed
FileNotFoundError (no-op). -/
def renameToBackup (fs : FS) (original backup : String) : FS :=
  match fs original with
  | some c => fsSet (fsSet fs original none) backup (some c)
  | none => fs

/-- Model of safe_replace.  Steps: delete a stale backup (best effort),
rename original to backup (missing original tolerated), rename newfile onto
original (failure, or a missing newfile, raises and is returned as error
together with the state at the raise point), delete the backup (best
effort). -/
def safe_replace (fs : FS) (original newfile : String) (fl : RepFlags) :
    Except FS FS :=
  let backup := backupPath original
  let fs1 := tryUnlink fs backup fl.preUnlinkOk
  let fs2 := renameToBackup fs1 original backup
  match fs2 newfile, fl.step3Ok with
  | some c, true =>
    let fs3 := fsSet (fsSet fs2 newfile none) original (some c)
    .ok (tryUnlink fs3 backup fl.finalUnlinkOk)
  | _, _ => .error fs2

/-- Concrete two-file filesystem used to exercise safe_replace: an original
asset holding content 1 and a temp file holding content 2. -/
def fsDemo : FS :=
  fun q => if q = "a.tif" then some 1 else if q = "new.tmp" then some 2 else none

/-- Did the safe_replace call return without raising? -/
def replSucceeded : Except FS FS → Bool
  | .ok _ => true
  | .error _ => false

/-- Filesystem state when the call returns or when the exception escapes. -/
def replState : Except FS FS → FS
  | .ok f => f
  | .error f => f

/-! ## main (formatSet.py lines 146-216), batch model -/

/-- Observable events of one run: a base identifier appended to the
in-memory manifest list, a processing attempt of one file (ok = false when
the per-asset try block raised and the except branch logged and continued),
and the single manifest write. -/
inductive Ev where
  | append (base : String)
  | attemptProc (file : String) (ok : Bool)
  | writeManifest (basenames : List String)
  deriving DecidableEq

/-- How the process ends: the explicit sys.exit(1) when no ImageMagick
binary is found, an uncaught exception crashing the interpreter (exit
status 1 without the diagnostic of the tool check), or a normal return
(exit status 0). -/
inductive MainResult where
  | exitFail
  | crash
  | done
  deriving DecidableEq

/-- Events of a run together with how it ended. -/
structure RunLog where
  events : List Ev
  result : MainResult
  deriving DecidableEq

/-- Environment of one run: whether find_imagemagick_cmd located a tool,
the regular files of the working directory, and which files the per-asset
pipeline (combine, compress, publish, thumbnail) processes without
raising. -/
structure Env where
  toolFound : Bool
  files : List String
  procOk : String → Bool

/-- Comparator main uses on files: the natural-sort key of the stem. -/
def fileCmp (f g : String) : Option Ordering :=
  identCmp (pathStem f) (pathStem g)

/-- Per-asset loop of main: append the stem to the manifest list, then
attempt processing; a failure is caught and the loop continues. -/
def assetLoop (procOk : String → Bool) : List String → List Ev
  | [] => []
  | f :: fs => .append (pathStem f) :: .attemptProc f (procOk f) :: assetLoop procOk fs

/-- Model of main: exit 1 when no tool is found; write an empty manifest
and return when no TIFF matches; sort by the natural key of the stem
(an incomparable key pair crashes the run before any asset is touched);
otherwise run the per-asset loop and write the manifest exactly once. -/
def mainRun (env : Env) : RunLog :=
  if env.toolFound = false then { events := [], result := .exitFail }
  else
    let tiffs := env.files.filter isTiffFile
    if tiffs.isEmpty then { events := [.writeManifest []], result := .done }
    else
      match sortE fileCmp tiffs with
      | .error _ => { events := [], result := .crash }
      | .ok sorted =>
        { events := assetLoop env.procOk sorted ++ [.writeManifest (sorted.map pathStem)]
          result := .done }

/-- Manifests written during a run, in order. -/
def manifestsIn (evs : List Ev) : List (List String) :=
  evs.filterMap fun e =>
    match e with
    | .writeManifest m => some m
    | _ => none

/-! ## Order lemmas for the natural-sort comparator -/

theorem cmpNat_eq_iff (a b : Nat) : cmpNat a b = .eq ↔ a = b := by
  unfold cmpNat
  split <;> rename_i h1
  · simp; omega
  · split <;> rename_i h2
    · simp; omega
    · simp; omega

theorem cmpNat_lt_iff (a b : Nat) : cmpNat a b = .lt ↔ a < b := by
  unfold cmpNat
  split <;> rename_i h1
  · simp; omega
  · split <;> rename_i h2
    · simp; omega
    · simp; omega

theorem cmpNat_swap (a b : Nat) : cmpNat b a = (cmpNat a b).swap := by
  unfold cmpNat
  rcases Nat.lt_trichotomy a b with h | h | h
  · simp [h, Nat.lt_asymm h, Ordering.swap]
  · simp [h, Nat.lt_irrefl, Ordering.swap]
  · simp [h, Nat.lt_asymm h, Ordering.swap]

theorem lexCmp_eq_iff : ∀ a b : List Nat, lexCmp a b = .eq ↔ a = b
  | [], [] => by simp [lexCmp]
  | [], _ :: _ => by simp [lexCmp]
  | _ :: _, [] => by simp [lexCmp]
  | a :: as, b :: bs => by
    unfold lexCmp
    cases h : cmpNat a b with
    | eq =>
      have hab : a = b := (cmpNat_eq_iff a b).mp h
      simp [hab, lexCmp_eq_iff as bs]
    | lt =>
      simp only [List.cons.injEq]
      constructor
      · intro hc; cases hc
      · rintro ⟨rfl, rfl⟩
        rw [(cmpNat_eq_iff a a).mpr rfl] at h
        cases h
    | gt =>
      simp only [List.cons.injEq]
      constructor
      · intro hc; cases hc
      · rintro ⟨rfl, rfl⟩
        rw [(cmpNat_eq_iff a a).mpr rfl] at h
        cases h

theorem lexCmp_swap : ∀ a b : List Nat, lexCmp b a = (lexCmp a b).swap
  | [], [] => rfl
  | [], _ :: _ => rfl
  | _ :: _, [] => rfl
  | a :: as, b :: bs => by
    unfold lexCmp
    rw [cmpNat_swap a b]
    cases cmpNat a b with
    | eq => exact lexCmp_swap as bs
    | lt => rfl
    | gt => rfl

theorem lexCmp_lt_trans :
    ∀ a b c : List Nat, lexCmp a b = .lt → lexCmp b c = .lt → lexCmp a c = .lt
  | [], _ :: _, _ :: _, _, _ => rfl
  | [], [], _, h, _ => by cases h
  | [], _ :: _, [], _, h => by cases h
  | _ :: _, [], _, h, _ => by cases h
  | _ :: _, _ :: _, [], _, h => by cases h
  | a :: as, b :: bs, c :: cs, h1, h2 => by
    unfold lexCmp at h1 h2 ⊢
    cases hab : cmpNat a b with
    | gt => rw [hab] at h1; cases h1
    | eq =>
      have : a = b := (cmpNat_eq_iff a b).mp hab
      subst this
      rw [hab] at h1
      cases hbc : cmpNat a c with
      | gt => rw [hbc] at h2; cases h2
      | eq =>
        rw [hbc] at h2
        exact lexCmp_lt_trans as bs cs h1 h2
      | lt => rfl
    | lt =>
      cases hbc : cmpNat b c with
      | gt => rw [hbc] at h2; cases h2
      | eq =>
        have : b = c := (cmpNat_eq_iff b c).mp hbc
        subst this
        rw [hab]
      | lt =>
        have : a < c :=
          Nat.lt_trans ((cmpNat_lt_iff a b).mp hab) ((cmpNat_lt_iff b c).mp hbc)
        rw [(cmpNat_lt_iff a c).mpr this]

theorem cmpTok_eq_iff (a b : NatTok) : cmpTok a b = some .eq ↔ a = b := by
  cases a with
  | num x =>
    cases b with
    | num y => simpa [cmpTok] using cmpNat_eq_iff x y
    | str y => simp [cmpTok]
  | str x =>
    cases b with
    | num y => simp [cmpTok]
    | str y => simpa [cmpTok] using lexCmp_eq_iff x y

theorem cmpTok_swap (a b : NatTok) : cmpTok b a = (cmpTok a b).map .swap := by
  cases a with
  | num x =>
    cases b with
    | num y => simp [cmpTok, cmpNat_swap x y]
    | str y => simp [cmpTok]
  | str x =>
    cases b with
    | num y => simp [cmpTok]
    | str y => simp [cmpTok, lexCmp_swap x y]

theorem cmpTok_lt_trans (a b c : NatTok) (h1 : cmpTok a b = some .lt)
    (h2 : cmpTok b c = some .lt) : cmpTok a c = some .lt := by
  cases a <;> cases b <;> cases c <;> simp_all [cmpTok, cmpNat_lt_iff]
  · omega
  · exact lexCmp_lt_trans _ _ _ h1 h2

theorem cmpKey_eq_iff : ∀ a b : List NatTok, cmpKey a b = some .eq ↔ a = b
  | [], [] => by simp [cmpKey]
  | [], _ :: _ => by simp [cmpKey]
  | _ :: _, [] => by simp [cmpKey]
  | a :: as, b :: bs => by
    unfold cmpKey
    cases h : cmpTok a b with
    | none =>
      simp only [List.cons.injEq]
      constructor
      · intro hc; cases hc
      · rintro ⟨rfl, rfl⟩
        rw [(cmpTok_eq_iff a a).mpr rfl] at h
        cases h
    | some o =>
      cases o with
      | eq =>
        have hab : a = b := (cmpTok_eq_iff a b).mp h
        simp [hab, cmpKey_eq_iff as bs]
      | lt =>
        simp only [List.cons.injEq]
        constructor
        · intro hc; cases hc
        · rintro ⟨rfl, rfl⟩
          rw [(cmpTok_eq_iff a a).mpr rfl] at h
          cases h
      | gt =>
        simp only [List.cons.injEq]
        constructor
        · intro hc; cases hc
        · rintro ⟨rfl, rfl⟩
          rw [(cmpTok_eq_iff a a).mpr rfl] at h
          cases h

theorem cmpKey_swap : ∀ a b : List NatTok, cmpKey b a = (cmpKey a b).map .swap
  | [], [] => rfl
  | [], _ :: _ => rfl
  | _ :: _, [] => rfl
  | a :: as, b :: bs => by
    unfold cmpKey
    rw [cmpTok_swap a b]
    cases cmpTok a b with
    | none => rfl
    | some o =>
      cases o with
      | eq => simpa using cmpKey_swap as bs
      | lt => rfl
      | gt => rfl

theorem cmpKey_lt_trans :
    ∀ a b c : List NatTok, cmpKey a b = some .lt → cmpKey b c = some .lt →
      cmpKey a c = some .lt
  | [], _ :: _, _ :: _, _, _ => rfl
  | [], [], _, h, _ => by cases h
  | [], _ :: _, [], _, h => by cases h
  | _ :: _, [], _, h, _ => by cases h
  | _ :: _, _ :: _, [], _, h => by cases h
  | a :: as, b :: bs, c :: cs, h1, h2 => by
    unfold cmpKey at h1 h2 ⊢
    cases hab : cmpTok a b with
    | none => rw [hab] at h1; cases h1
    | some oab =>
      cases oab with
      | gt => rw [hab] at h1; cases h1
      | eq =>
        have : a = b := (cmpTok_eq_iff a b).mp hab
        subst this
        rw [hab] at h1
        cases hbc : cmpTok a c with
        | none => rw [hbc] at h2; cases h2
        | some obc =>
          cases obc with
          | gt => rw [hbc] at h2; cases h2
          | eq =>
            rw [hbc] at h2
            exact cmpKey_lt_trans as bs cs h1 h2
          | lt => rfl
      | lt =>
        cases hbc : cmpTok b c with
        | none => rw [hbc] at h2; cases h2
        | some obc =>
          cases obc with
          | gt => rw [hbc] at h2; cases h2
          | eq =>
            have : b = c := (cmpTok_eq_iff b c).mp hbc
            subst this
            rw [hab]
          | lt =>
            rw [cmpTok_lt_trans a b c hab hbc]

/-- A key pair that compares equal is an equal pair of keys. -/
theorem cmpKey_le_trans (ka kb kc : List NatTok)
    (h1 : cmpKey ka kb = some .lt ∨ cmpKey ka kb = some .eq)
    (h2 : cmpKey kb kc = some .lt ∨ cmpKey kb kc = some .eq) :
    cmpKey ka kc = some .lt ∨ cmpKey ka kc = some .eq := by
  rcases h1 with h1 | h1
  · rcases h2 with h2 | h2
    · exact Or.inl (cmpKey_lt_trans ka kb kc h1 h2)
    · have hbc : kb = kc := (cmpKey_eq_iff kb kc).mp h2
      subst hbc
      exact Or.inl h1
  · have hab : ka = kb := (cmpKey_eq_iff ka kb).mp h1
    subst hab
    exact h2

/-! ## Correctness of the fallible stable sort -/

theorem insertE_perm {α : Type} (cmp : α → α → Option Ordering) (x : α) :
    ∀ (l r : List α), insertE cmp x l = .ok r → r.Perm (x :: l)
  | [], r, h => by
    simp [insertE] at h
    subst h
    exact List.Perm.refl _
  | y :: ys, r, h => by
    unfold insertE at h
    cases hc : cmp x y with
    | none => rw [hc] at h; cases h
    | some o =>
      rw [hc] at h
      cases o with
      | gt =>
        cases hr : insertE cmp x ys with
        | error e => rw [hr] at h; cases h
        | ok r2 =>
          rw [hr] at h
          cases h
          exact ((insertE_perm cmp x ys r2 hr).cons y).trans (List.Perm.swap x y ys)
      | lt => cases h; exact List.Perm.refl _
      | eq => cases h; exact List.Perm.refl _

theorem sortE_perm {α : Type} (cmp : α → α → Option Ordering) :
    ∀ (l r : List α), sortE cmp l = .ok r → r.Perm l
  | [], r, h => by
    simp [sortE] at h
    subst h
    exact List.Perm.refl _
  | x :: xs, r, h => by
    unfold sortE at h
    cases hs : sortE cmp xs with
    | error e => rw [hs] at h; cases h
    | ok s =>
      rw [hs] at h
      exact (insertE_perm cmp x s r h).trans ((sortE_perm cmp xs s hs).cons x)

theorem insertE_isOk {α : Type} (cmp : α → α → Option Ordering) (x : α) :
    ∀ l : List α, (∀ y ∈ l, (cmp x y).isSome = true) →
      ∃ r, insertE cmp x l = .ok r
  | [], _ => ⟨[x], rfl⟩
  | y :: ys, h => by
    unfold insertE
    cases hc : cmp x y with
    | none =>
      have hy := h y (List.mem_cons_self y ys)
      rw [hc] at hy
      cases hy
    | some o =>
      cases o with
      | gt =>
        obtain ⟨r, hr⟩ := insertE_isOk cmp x ys fun z hz => h z (List.mem_cons_of_mem y hz)
        rw [hr]
        exact ⟨y :: r, rfl⟩
      | lt => exact ⟨x :: y :: ys, rfl⟩
      | eq => exact ⟨x :: y :: ys, rfl⟩

theorem sortE_isOk {α : Type} (cmp : α → α → Option Ordering) :
    ∀ l : List α, l.Pairwise (fun a b => (cmp a b).isSome = true) →
      ∃ r, sortE cmp l = .ok r
  | [], _ => ⟨[], rfl⟩
  | x :: xs, h => by
    rw [List.pairwise_cons] at h
    obtain ⟨s, hs⟩ := sortE_isOk cmp xs h.2
    unfold sortE
    rw [hs]
    exact insertE_isOk cmp x s fun y hy =>
      h.1 y ((sortE_perm cmp xs s hs).mem_iff.mp hy)

theorem insertE_pairwise {α : Type} (cmp : α → α → Option Ordering)
    (hswap : ∀ a b, cmp a b = some .gt → cmp b a = some .lt)
    (htrans : ∀ a b c, leOf cmp a b → leOf cmp b c → leOf cmp a c) (x : α) :
    ∀ (l r : List α), l.Pairwise (leOf cmp) →
      insertE cmp x l = .ok r → r.Pairwise (leOf cmp)
  | [], r, _, h => by
    simp [insertE] at h
    subst h
    simp
  | y :: ys, r, hp, h => by
    rw [List.pairwise_cons] at hp
    unfold insertE at h
    cases hc : cmp x y with
    | none => rw [hc] at h; cases h
    | some o =>
      rw [hc] at h
      cases o with
      | lt =>
        cases h
        refine List.pairwise_cons.mpr ⟨?_, List.pairwise_cons.mpr ⟨hp.1, hp.2⟩⟩
        intro z hz
        rcases List.mem_cons.mp hz with rfl | hz2
        · exact Or.inl hc
        · exact htrans x y z (Or.inl hc) (hp.1 z hz2)
      | eq =>
        cases h
        refine List.pairwise_cons.mpr ⟨?_, List.pairwise_cons.mpr ⟨hp.1, hp.2⟩⟩
        intro z hz
        rcases List.mem_cons.mp hz with rfl | hz2
        · exact Or.inr hc
        · exact htrans x y z (Or.inr hc) (hp.1 z hz2)
      | gt =>
        cases hr : insertE cmp x ys with
        | error e => rw [hr] at h; cases h
        | ok r2 =>
          rw [hr] at h
          cases h
          have hpr2 : r2.Pairwise (leOf cmp) :=
            insertE_pairwise cmp hswap htrans x ys r2 hp.2 hr
          refine List.pairwise_cons.mpr ⟨?_, hpr2⟩
          intro z hz
          have hz2 := (insertE_perm cmp x ys r2 hr).mem_iff.mp hz
          rcases List.mem_cons.mp hz2 with hzx | hz3
          · subst hzx
            exact Or.inl (hswap _ y hc)
          · exact hp.1 z hz3

theorem sortE_pairwise {α : Type} (cmp : α → α → Option Ordering)
    (hswap : ∀ a b, cmp a b = some .gt → cmp b a = some .lt)
    (htrans : ∀ a b c, leOf cmp a b → leOf cmp b c → leOf cmp a c) :
    ∀ (l r : List α), sortE cmp l = .ok r → r.Pairwise (leOf cmp)
  | [], r, h => by
    simp [sortE] at h
    subst h
    simp
  | x :: xs, r, h => by
    unfold sortE at h
    cases hs : sortE cmp xs with
    | error e => rw [hs] at h; cases h
    | ok s =>
      rw [hs] at h
      exact insertE_pairwise cmp hswap htrans x s r
        (sortE_pairwise cmp hswap htrans xs s hs) h

/-! ## The orchestrator comparators inherit the order properties -/

theorem identCmp_gt_swap (a b : String) (h : identCmp a b = some .gt) :
    identCmp b a = some .lt := by
  unfold identCmp at h ⊢
  rw [cmpKey_swap, h]
  rfl

theorem identLe_trans (a b c : String) (h1 : identLe a b) (h2 : identLe b c) :
    identLe a c :=
  cmpKey_le_trans _ _ _ h1 h2

theorem fileCmp_gt_swap (a b : String) (h : fileCmp a b = some .gt) :
    fileCmp b a = some .lt :=
  identCmp_gt_swap _ _ h

theorem fileLe_trans (a b c : String) (h1 : leOf fileCmp a b)
    (h2 : leOf fileCmp b c) : leOf fileCmp a c :=
  cmpKey_le_trans _ _ _ h1 h2

/-! ## Pointwise lemmas about the filesystem model -/

theorem fsSet_self (fs : FS) (p : String) (v : Option Nat) : fsSet fs p v p = v := by
  simp [fsSet]

theorem fsSet_ne (fs : FS) (p : String) (v : Option Nat) (q : String) (h : q ≠ p) :
    fsSet fs p v q = fs q := by
  simp [fsSet, h]

theorem tryUnlink_ne (fs : FS) (p : String) (ok : Bool) (q : String) (h : q ≠ p) :
    tryUnlink fs p ok q = fs q := by
  unfold tryUnlink
  split
  · exact fsSet_ne fs p none q h
  · rfl

theorem tryUnlink_delete (fs : FS) (p : String) (h : (fs p).isSome = true) :
    tryUnlink fs p true p = none := by
  unfold tryUnlink
  rw [h]
  simp [fsSet_self]

theorem backupPath_ne (s : String) : backupPath s ≠ s := by
  intro h
  have hl := congrArg String.length h
  rw [backupPath, String.length_append] at hl
  have h4 : ".bak".length = 4 := rfl
  omega

theorem ne_backupPath (s : String) : s ≠ backupPath s :=
  fun h => backupPath_ne s h.symm

/-! ## Structural lemmas about the batch model -/

theorem assetLoop_eq_bind (procOk : String → Bool) :
    ∀ l : List String,
      assetLoop procOk l =
        l.flatMap fun f => [.append (pathStem f), .attemptProc f (procOk f)]
  | [] => rfl
  | f :: fs => by
    simp [assetLoop, assetLoop_eq_bind procOk fs]

theorem manifestsIn_append (a b : List Ev) :
    manifestsIn (a ++ b) = manifestsIn a ++ manifestsIn b := by
  simp [manifestsIn, List.filterMap_append]

theorem manifestsIn_assetLoop (procOk : String → Bool) :
    ∀ l : List String, manifestsIn (assetLoop procOk l) = []
  | [] => rfl
  | f :: fs => by
    simp only [assetLoop, manifestsIn, List.filterMap_cons]
    exact manifestsIn_assetLoop procOk fs

theorem mainRun_sorted_eq (env : Env) (sorted : List String)
    (htool : env.toolFound = true)
    (hne : (env.files.filter isTiffFile).isEmpty = false)
    (hsort : sortE fileCmp (env.files.filter isTiffFile) = .ok sorted) :
    mainRun env =
      { events := assetLoop env.procOk sorted ++ [.writeManifest (sorted.map pathStem)]
        result := .done } := by
  unfold mainRun
  simp [htool, hne, hsort]

/-! ## Claim C3: channel assignment of the compositor -/

/-- Claim C3: for every asset whose page count is exactly 2 the compositor
invokes the external tool on page 0 as Red, page 1 as Green and page 1
duplicated as Blue; for every page count of at least 3 it invokes it on
pages 0, 1, 2 as Red, Green, Blue (the -combine operator binds the listed
inputs to R, G, B in order), and the invocation is the same for every such
count, so pages beyond index 2 are ignored. -/
theorem combine_channel_assignment (im_cmd mode p : String) (n : Int) :
    (n = 2 →
      combine_channels_if_needed im_cmd mode p n =
        { ret := p ++ ".rgb.tmp.tif"
          invoked := some [im_cmd, p ++ "[0]", p ++ "[1]", p ++ "[1]", "-combine",
            p ++ ".rgb.tmp.tif"] }) ∧
    (3 ≤ n →
      combine_channels_if_needed im_cmd mode p n =
        { ret := p ++ ".rgb.tmp.tif"
          invoked := some [im_cmd, p ++ "[0]", p ++ "[1]", p ++ "[2]", "-combine",
            p ++ ".rgb.tmp.tif"] }) := by
  constructor
  · rintro rfl
    by_cases hm : mode = "magick" <;>
      simp [combine_channels_if_needed, hm]
  · intro h3
    have hn1 : ¬(n ≤ 1) := by omega
    by_cases hm : mode = "magick" <;>
      simp [combine_channels_if_needed, hm, hn1, ge_iff_le, h3]

/-- Witness for C3 at concrete inputs. -/
theorem combine_channel_assignment_witness :
    combine_channels_if_needed "magick" "magick" "a.tif" 2 =
      { ret := "a.tif.rgb.tmp.tif"
        invoked := some ["magick", "a.tif[0]", "a.tif[1]", "a.tif[1]", "-combine",
          "a.tif.rgb.tmp.tif"] } ∧
    combine_channels_if_needed "magick" "magick" "a.tif" 5 =
      { ret := "a.tif.rgb.tmp.tif"
        invoked := some ["magick", "a.tif[0]", "a.tif[1]", "a.tif[2]", "-combine",
          "a.tif.rgb.tmp.tif"] } :=
  ⟨(combine_channel_assignment "magick" "magick" "a.tif" 2).1 rfl,
   (combine_channel_assignment "magick" "magick" "a.tif" 5).2 (by decide)⟩

/-! ## Claim C4: single-page pass-through -/

/-- Claim C4: for every asset whose page count is at most 1 the compositor
returns the asset's own path unchanged and invokes nothing, so no new
artifact is created. -/
theorem combine_passthrough (im_cmd mode p : String) (n : Int) (h : n ≤ 1) :
    combine_channels_if_needed im_cmd mode p n = { ret := p, invoked := none } := by
  unfold combine_channels_if_needed
  rw [if_pos h]

/-- Witness for C4 at a single-page asset. -/
theorem combine_passthrough_witness :
    combine_channels_if_needed "magick" "magick" "a.tif" 1 =
      { ret := "a.tif", invoked := none } :=
  combine_passthrough "magick" "magick" "a.tif" 1 (by decide)

/-! ## Claim C5: page-count parsing -/

/-- Counterexample for C5 as stated: when the successful query outputs the
text 0, identify_num_pages returns 0, which is not an integer of at least
1; the code passes the parsed value through without clamping. -/
theorem page_count_zero_cex :
    identify_num_pages "0" "" = 0 ∧ ¬(1 ≤ identify_num_pages "0" "") := by
  constructor
  · rfl
  · decide

/-- Claim C5 (amended): identify_num_pages returns the integer parsed from
the selected query output whenever one parses (with no lower clamp, so a
parsed value below 1 is passed through), and returns exactly 1 whenever the
output cannot be parsed as an integer; consequently a result below 1 only
ever arises as a faithfully parsed query output. -/
theorem page_count_parse (stdout stderr : String) :
    (∀ n : Int, parseIntPy (pickTxt stdout stderr) = some n →
      identify_num_pages stdout stderr = n) ∧
    (parseIntPy (pickTxt stdout stderr) = none →
      identify_num_pages stdout stderr = 1) ∧
    (1 ≤ identify_num_pages stdout stderr ∨
      parseIntPy (pickTxt stdout stderr) = some (identify_num_pages stdout stderr)) := by
  refine ⟨?_, ?_, ?_⟩
  · intro n h
    unfold identify_num_pages
    rw [h]
  · intro h
    unfold identify_num_pages
    rw [h]
  · unfold identify_num_pages
    cases h : parseIntPy (pickTxt stdout stderr) with
    | none =>
      left
      show (1 : Int) ≤ 1
      exact le_refl 1
    | some n =>
      right
      rfl

/-- Witness for the amended C5: an unparseable output defaults to 1. -/
theorem page_count_parse_witness :
    parseIntPy (pickTxt "abc" "") = none ∧ identify_num_pages "abc" "" = 1 :=
  ⟨rfl, (page_count_parse "abc" "").2.1 rfl⟩

/-! ## Claim C9: stderr fallback of the page-count query -/

/-- Claim C9: when the successful query's stdout strips to empty, the count
is parsed from the captured stderr instead; when stdout strips non-empty it
is the one parsed, so an integer is accepted from either stream with stdout
taking precedence. -/
theorem stream_fallback (stdout stderr : String) :
    (pyStrip stdout = "" → ∀ n : Int, parseIntPy (pyStrip stderr) = some n →
      identify_num_pages stdout stderr = n) ∧
    (pyStrip stdout ≠ "" → ∀ n : Int, parseIntPy (pyStrip stdout) = some n →
      identify_num_pages stdout stderr = n) := by
  constructor
  · intro he n h
    unfold identify_num_pages pickTxt
    rw [if_neg fun hc => hc he, h]
  · intro hne n h
    unfold identify_num_pages pickTxt
    rw [if_pos hne, h]

/-- Witness for C9: stderr is used exactly when stdout strips empty. -/
theorem stream_fallback_witness :
    pyStrip "" = "" ∧ identify_num_pages "" " 4 \n" = 4 ∧
      pyStrip "3" ≠ "" ∧ identify_num_pages "3" "7" = 3 :=
  ⟨rfl, (stream_fallback "" " 4 \n").1 rfl 4 rfl,
   by decide, (stream_fallback "3" "7").2 (by decide) 3 rfl⟩

/-! ## Claim C10: incomparable keys abort the run -/

/-- Claim C10: the natural-sort keys of the stems 1a and a1 align a digit
run against a non-digit run, so comparing them is a TypeError (none), and a
batch holding exactly those two assets crashes in the sort, before any
asset is processed and before any manifest is written, whatever the
per-asset outcomes would have been. -/
theorem incomparable_keys_abort (procOk : String → Bool) :
    cmpKey (natural_sort_key "1a") (natural_sort_key "a1") = none ∧
    mainRun { toolFound := true, files := ["1a.tif", "a1.tif"], procOk := procOk } =
      { events := [], result := .crash } :=
  ⟨rfl, rfl⟩

/-- Witness for C10 at a concrete per-asset outcome function. -/
theorem incomparable_keys_abort_witness :
    mainRun { toolFound := true, files := ["1a.tif", "a1.tif"], procOk := fun _ => true } =
      { events := [], result := .crash } :=
  (incomparable_keys_abort (fun _ => true)).2

/-! ## Claim C6: natural sort of identifiers -/

/-- Counterexample for C6 as stated: the sort is not defined on every list
of identifiers; on the identifiers 1a and a1 it raises a TypeError instead
of returning an order. -/
theorem natural_sort_error_cex :
    sortE identCmp ["1a", "a1"] = .error () := rfl

/-- Claim C6 (amended): for every list of identifiers whose natural-sort
keys are pairwise comparable (no digit run aligned against a non-digit run),
the orchestrator's sort succeeds and returns a reordering of the list that
is sorted by the natural key order (digit runs numerically, non-digit runs
case-insensitively lexicographically); in particular img2, img10, img1
sorts to img1, img2, img10. -/
theorem natural_sort_correct (l : List String)
    (h : l.Pairwise fun a b => (identCmp a b).isSome = true) :
    (∃ r, sortE identCmp l = .ok r ∧ r.Perm l ∧ r.Pairwise identLe) ∧
    sortE identCmp ["img2", "img10", "img1"] = .ok ["img1", "img2", "img10"] := by
  constructor
  · obtain ⟨r, hr⟩ := sortE_isOk identCmp l h
    exact ⟨r, hr, sortE_perm identCmp l r hr,
      sortE_pairwise identCmp identCmp_gt_swap identLe_trans l r hr⟩
  · rfl

/-- Witness for the amended C6 at the concrete example list. -/
theorem natural_sort_correct_witness :
    (["img2", "img10", "img1"].Pairwise fun a b => (identCmp a b).isSome = true) ∧
    (∃ r, sortE identCmp ["img2", "img10", "img1"] = .ok r ∧
      r.Perm ["img2", "img10", "img1"] ∧ r.Pairwise identLe) :=
  ⟨by decide, (natural_sort_correct ["img2", "img10", "img1"] (by decide)).1⟩

/-! ## Claim C1: the atomic publisher -/

/-- Counterexample for C1 as stated: an invocation of safe_replace in which
the final backup deletion fails completes without raising, yet the backup
file remains afterwards, so completing without raising does not imply that
no backup file remains. -/
theorem publish_backup_remains_cex :
    replSucceeded (safe_replace fsDemo "a.tif" "new.tmp" ⟨true, true, false⟩) = true ∧
    replState (safe_replace fsDemo "a.tif" "new.tmp" ⟨true, true, false⟩) "a.tif.bak"
      = some 1 := by
  constructor
  · decide
  · decide

/-- Claim C1 (amended): for a publish of an existing original from a
distinct temp file, (a) whenever the publishing rename (step 3) is allowed,
the call returns without raising, the original path holds the contents that
were at the new-content path, the publish is never rolled back, and the
backup is gone provided its final deletion succeeded; (b) whenever step 3
fails, the error propagates (no silent recovery) and the call leaves the
original path absent with the backup present, holding the old contents. -/
theorem publish_contract (fs : FS) (original newfile : String) (fl : RepFlags)
    (c0 cN : Nat) (hO : fs original = some c0) (hN : fs newfile = some cN)
    (hno : newfile ≠ original) (hnb : newfile ≠ backupPath original) :
    (fl.step3Ok = true →
      ∃ fsF, safe_replace fs original newfile fl = .ok fsF ∧
        fsF original = some cN ∧
        (fl.finalUnlinkOk = true → fsF (backupPath original) = none)) ∧
    (fl.step3Ok = false →
      ∃ fsF, safe_replace fs original newfile fl = .error fsF ∧
        fsF original = none ∧ fsF (backupPath original) = some c0) := by
  have hob : original ≠ backupPath original := ne_backupPath original
  have h1o : tryUnlink fs (backupPath original) fl.preUnlinkOk original = some c0 := by
    rw [tryUnlink_ne _ _ _ _ hob]
    exact hO
  have h1n : tryUnlink fs (backupPath original) fl.preUnlinkOk newfile = some cN := by
    rw [tryUnlink_ne _ _ _ _ hnb]
    exact hN
  have h2eq :
      renameToBackup (tryUnlink fs (backupPath original) fl.preUnlinkOk) original
          (backupPath original) =
        fsSet (fsSet (tryUnlink fs (backupPath original) fl.preUnlinkOk) original none)
          (backupPath original) (some c0) := by
    unfold renameToBackup
    rw [h1o]
  have h2o :
      renameToBackup (tryUnlink fs (backupPath original) fl.preUnlinkOk) original
        (backupPath original) original = none := by
    rw [h2eq, fsSet_ne _ _ _ _ hob, fsSet_self]
  have h2b :
      renameToBackup (tryUnlink fs (backupPath original) fl.preUnlinkOk) original
        (backupPath original) (backupPath original) = some c0 := by
    rw [h2eq, fsSet_self]
  have h2n :
      renameToBackup (tryUnlink fs (backupPath original) fl.preUnlinkOk) original
        (backupPath original) newfile = some cN := by
    rw [h2eq, fsSet_ne _ _ _ _ hnb, fsSet_ne _ _ _ _ hno]
    exact h1n
  constructor
  · intro h3
    refine ⟨tryUnlink
        (fsSet (fsSet (renameToBackup (tryUnlink fs (backupPath original) fl.preUnlinkOk)
          original (backupPath original)) newfile none) original (some cN))
        (backupPath original) fl.finalUnlinkOk, ?_, ?_, ?_⟩
    · simp only [safe_replace]
      rw [h2n, h3]
    · rw [tryUnlink_ne _ _ _ _ hob, fsSet_self]
    · intro h4
      have h3b :
          fsSet (fsSet (renameToBackup (tryUnlink fs (backupPath original) fl.preUnlinkOk)
              original (backupPath original)) newfile none) original (some cN)
            (backupPath original) = some c0 := by
        rw [fsSet_ne _ _ _ _ (backupPath_ne original), fsSet_ne _ _ _ _ (Ne.symm hnb)]
        exact h2b
      rw [h4]
      refine tryUnlink_delete _ _ ?_
      rw [h3b]
      rfl
  · intro h3
    refine ⟨renameToBackup (tryUnlink fs (backupPath original) fl.preUnlinkOk) original
        (backupPath original), ?_, h2o, h2b⟩
    simp only [safe_replace]
    rw [h2n, h3]

/-- Witness for the amended C1 on the concrete two-file filesystem with all
operations succeeding. -/
theorem publish_contract_witness :
    fsDemo "a.tif" = some 1 ∧ fsDemo "new.tmp" = some 2 ∧
    "new.tmp" ≠ "a.tif" ∧ "new.tmp" ≠ backupPath "a.tif" ∧
    (((true : Bool) = true →
      ∃ fsF, safe_replace fsDemo "a.tif" "new.tmp" ⟨true, true, true⟩ = .ok fsF ∧
        fsF "a.tif" = some 2 ∧
        ((true : Bool) = true → fsF (backupPath "a.tif") = none)) ∧
    ((true : Bool) = false →
      ∃ fsF, safe_replace fsDemo "a.tif" "new.tmp" ⟨true, true, true⟩ = .error fsF ∧
        fsF "a.tif" = none ∧ fsF (backupPath "a.tif") = some 1)) :=
  ⟨rfl, rfl, by decide, by decide,
   publish_contract fsDemo "a.tif" "new.tmp" ⟨true, true, true⟩ 1 2 rfl rfl
     (by decide) (by decide)⟩

/-! ## Claim C2: manifest accumulation -/

/-- Counterexample for C2 as stated: a batch run whose asset stems have
incomparable natural-sort keys crashes in the sort, so that run writes no
manifest at all — the manifest is not written exactly once in every batch
run. -/
theorem manifest_crash_cex :
    mainRun { toolFound := true, files := ["3c.tif", "c3.tif"], procOk := fun _ => true } =
      { events := [], result := .crash } ∧
    manifestsIn (mainRun { toolFound := true, files := ["3c.tif", "c3.tif"], procOk := fun _ => true }).events = [] :=
  ⟨rfl, rfl⟩

/-- Claim C2 (amended): in every batch run whose natural sort succeeds,
each asset's base identifier is appended to the manifest before its
processing attempt, every asset is attempted regardless of earlier
failures, and the manifest is written exactly once, at the end, holding
every attempted identifier; a run with zero matching assets writes the
empty manifest, and a run over a.tif and b.tif in which b fails still
writes the manifest a, b. -/
theorem manifest_accumulation (env : Env) (sorted : List String)
    (htool : env.toolFound = true)
    (hne : (env.files.filter isTiffFile).isEmpty = false)
    (hsort : sortE fileCmp (env.files.filter isTiffFile) = .ok sorted) :
    (mainRun env).events =
      (sorted.flatMap fun f => [.append (pathStem f), .attemptProc f (env.procOk f)]) ++
        [.writeManifest (sorted.map pathStem)] ∧
    (mainRun env).result = .done ∧
    manifestsIn (mainRun env).events = [sorted.map pathStem] ∧
    (∀ pk : String → Bool,
      mainRun { toolFound := true, files := [], procOk := pk } =
        { events := [.writeManifest []], result := .done }) ∧
    mainRun { toolFound := true, files := ["a.tif", "b.tif"], procOk := fun f => !(f == "b.tif") } =
      { events := [.append "a", .attemptProc "a.tif" true, .append "b",
          .attemptProc "b.tif" false, .writeManifest ["a", "b"]], result := .done } := by
  have hmain := mainRun_sorted_eq env sorted htool hne hsort
  refine ⟨?_, ?_, ?_, ?_, ?_⟩
  · rw [hmain]
    show assetLoop env.procOk sorted ++ _ = _
    rw [assetLoop_eq_bind]
  · rw [hmain]
  · rw [hmain]
    show manifestsIn (assetLoop env.procOk sorted ++ [.writeManifest (sorted.map pathStem)]) = _
    rw [manifestsIn_append, manifestsIn_assetLoop]
    rfl
  · intro pk
    rfl
  · decide

/-- Witness for the amended C2 at a concrete two-asset batch whose second
asset fails. -/
theorem manifest_accumulation_witness :
    ((["a.tif", "b.tif"].filter isTiffFile).isEmpty = false) ∧
    sortE fileCmp (["a.tif", "b.tif"].filter isTiffFile) = .ok ["a.tif", "b.tif"] ∧
    (mainRun { toolFound := true, files := ["a.tif", "b.tif"], procOk := fun f => !(f == "b.tif") }).events =
      ((["a.tif", "b.tif"].flatMap fun f =>
          [Ev.append (pathStem f), Ev.attemptProc f (!(f == "b.tif"))]) ++
        [Ev.writeManifest (["a.tif", "b.tif"].map pathStem)]) :=
  ⟨by decide, rfl,
   (manifest_accumulation { toolFound := true, files := ["a.tif", "b.tif"], procOk := fun f => !(f == "b.tif") } ["a.tif", "b.tif"] rfl (by decide)
      rfl).1⟩

/-! ## Claim C7: the exit-status contract -/

/-- Counterexample for C7 as stated: a run in which the tool is found but
the asset stems have incomparable natural-sort keys neither exits
successfully nor takes the distinguished startup failure exit — it crashes
with an uncaught TypeError. -/
theorem exit_status_crash_cex :
    (mainRun { toolFound := true, files := ["2b.tif", "b2.tif"], procOk := fun _ => true }).result = .crash ∧
    (mainRun { toolFound := true, files := ["2b.tif", "b2.tif"], procOk := fun _ => true }).result ≠ .done ∧
    (mainRun { toolFound := true, files := ["2b.tif", "b2.tif"], procOk := fun _ => true }).result ≠ .exitFail := by
  refine ⟨rfl, ?_, ?_⟩ <;> decide

/-- Every run without the tool takes the distinguished exit, and only such
runs do. -/
theorem mainRun_result_cases (env : Env) (htool : env.toolFound = true) :
    (mainRun env).result = .crash ∨ (mainRun env).result = .done := by
  unfold mainRun
  rw [htool]
  simp only [Bool.true_eq_false, if_false]
  split
  · right; rfl
  · split
    · left; rfl
    · right; rfl

/-- Claim C7 (amended): the run takes the distinguished failure exit (the
explicit exit status 1 with the diagnostic) exactly when the external tool
cannot be located at startup; every other run whose natural sort is defined
(pairwise comparable keys) exits successfully, whatever the per-asset
outcomes; a run with incomparable keys instead crashes (uncaught
exception), which is neither of the two. -/
theorem exit_status_contract (env : Env) :
    ((mainRun env).result = .exitFail ↔ env.toolFound = false) ∧
    (env.toolFound = true →
      (env.files.filter isTiffFile).Pairwise (fun f g => (fileCmp f g).isSome = true) →
      (mainRun env).result = .done) := by
  constructor
  · constructor
    · intro h
      cases htf : env.toolFound
      · rfl
      · rcases mainRun_result_cases env htf with hc | hd
        · rw [h] at hc; cases hc
        · rw [h] at hd; cases hd
    · intro h
      unfold mainRun
      rw [h]
      rfl
  · intro htool hpw
    cases he : (env.files.filter isTiffFile).isEmpty with
    | true =>
      unfold mainRun
      rw [htool]
      simp [he]
    | false =>
      obtain ⟨sorted, hsort⟩ := sortE_isOk fileCmp _ hpw
      rw [mainRun_sorted_eq env sorted htool he hsort]

/-- Witness for the amended C7 at a concrete one-asset run. -/
theorem exit_status_contract_witness :
    ((["x.tif"].filter isTiffFile).Pairwise fun f g => (fileCmp f g).isSome = true) ∧
    (mainRun { toolFound := true, files := ["x.tif"], procOk := fun _ => true }).result
      = .done :=
  ⟨by decide,
   (exit_status_contract { toolFound := true, files := ["x.tif"], procOk := fun _ => true }).2 rfl (by decide)⟩

/-! ## Claim C8: colliding base identifiers -/

/-- Counterexample for C8 as stated: a batch holding a.tif and a.tiff,
whose base identifiers collide, yields the manifest a, a — the later
asset's entry does not overwrite the earlier one and the manifest does
contain a duplicate entry. -/
theorem manifest_duplicates_cex :
    mainRun { toolFound := true, files := ["a.tif", "a.tiff"], procOk := fun _ => true } =
      { events := [.append "a", .attemptProc "a.tif" true, .append "a",
          .attemptProc "a.tiff" true, .writeManifest ["a", "a"]], result := .done } := by
  decide

/-- Claim C8 (amended): in every batch containing two distinct assets with
the same base identifier whose sort succeeds, that identifier appears at
least twice in the single manifest the run writes — collisions are kept as
duplicate entries in attempt order, not overwritten. -/
theorem manifest_duplicates (env : Env) (sorted : List String) (f g : String)
    (htool : env.toolFound = true)
    (hsort : sortE fileCmp (env.files.filter isTiffFile) = .ok sorted)
    (hf : f ∈ env.files.filter isTiffFile) (hg : g ∈ env.files.filter isTiffFile)
    (hfg : f ≠ g) (hstem : pathStem f = pathStem g) :
    2 ≤ (sorted.map pathStem).count (pathStem f) ∧
    manifestsIn (mainRun env).events = [sorted.map pathStem] := by
  have hne : (env.files.filter isTiffFile).isEmpty = false := by
    cases hne2 : (env.files.filter isTiffFile).isEmpty
    · rfl
    · have hnil : env.files.filter isTiffFile = [] := by
        simpa using hne2
      rw [hnil] at hf
      cases hf
  constructor
  · have hperm : sorted.Perm (env.files.filter isTiffFile) :=
      sortE_perm _ _ _ hsort
    rw [(hperm.map pathStem).count_eq (pathStem f)]
    have hperm2 : (env.files.filter isTiffFile).Perm
        (f :: (env.files.filter isTiffFile).erase f) :=
      List.perm_cons_erase hf
    have hgmem : g ∈ (env.files.filter isTiffFile).erase f :=
      (List.mem_erase_of_ne (Ne.symm hfg)).mpr hg
    rw [(hperm2.map pathStem).count_eq (pathStem f)]
    simp only [List.map_cons, List.count_cons_self]
    have hpos :
        0 < (((env.files.filter isTiffFile).erase f).map pathStem).count (pathStem f) := by
      rw [List.count_pos_iff, hstem]
      exact List.mem_map_of_mem pathStem hgmem
    omega
  · rw [mainRun_sorted_eq env sorted htool hne hsort]
    show manifestsIn (assetLoop env.procOk sorted ++ [.writeManifest (sorted.map pathStem)]) = _
    rw [manifestsIn_append, manifestsIn_assetLoop]
    rfl

/-- Witness for the amended C8 at a concrete colliding batch. -/
theorem manifest_duplicates_witness :
    sortE fileCmp (["a.tif", "a.tiff"].filter isTiffFile) = .ok ["a.tif", "a.tiff"] ∧
    pathStem "a.tif" = pathStem "a.tiff" ∧
    2 ≤ ((["a.tif", "a.tiff"].map pathStem).count (pathStem "a.tif")) :=
  ⟨rfl, rfl,
   (manifest_duplicates { toolFound := true, files := ["a.tif", "a.tiff"], procOk := fun _ => true } ["a.tif", "a.tiff"] "a.tif" "a.tiff" rfl rfl
      (by decide) (by decide) (by decide) rfl).1⟩

end FormatSet
